import Mathlib

/-
Verification development for UniGit (src/UniGit.py): a shallow embedding of
the recursive repository-discovery and batched-update engine, its summary
generator with retry and circuit breaker, and the summary ledger, together
with theorems settling the specification claims.
-/

set_option maxHeartbeats 1000000

namespace UniGit

/-! ## Python string primitives

Python's `str.strip`, `str.startswith`, `str.lower`, slicing, and the
substring operator `in`, modelled over the character list of a string so
that every definition evaluates inside the kernel. -/

/-- Python `s.strip()`: remove leading and trailing whitespace. -/
def pyStrip (s : String) : String :=
  String.mk (((s.toList.dropWhile Char.isWhitespace).reverse.dropWhile Char.isWhitespace).reverse)

/-- Python `s.startswith(pre)`. -/
def pyStartsWith (s pre : String) : Bool := pre.toList.isPrefixOf s.toList

/-- Python `s.lower()` (ASCII case folding, which covers every string the
program compares). -/
def pyLower (s : String) : String := String.mk (s.toList.map Char.toLower)

/-- Python `s[:n]`: the first `n` characters. -/
def pyTake (s : String) (n : Nat) : String := String.mk (s.toList.take n)

/-- Python `needle in hay`: contiguous substring test. -/
def strContainsSub (hay needle : String) : Bool :=
  (List.range (hay.toList.length + 1)).any fun i => needle.toList.isPrefixOf (hay.toList.drop i)

/-! ## SummaryGenerator: `summarize_with_ollama` (src/UniGit.py lines 558-643)

The external subprocess calls (`ollama list` probe and `ollama run`) are
modelled by an environment giving, for each attempt index, what each call
does: succeed with some stdout, time out (`subprocess.TimeoutExpired`),
exit nonzero (`subprocess.CalledProcessError`), be missing
(`FileNotFoundError`), or raise some other exception. -/

/-- Result of one external subprocess invocation, as observed by the
`try`/`except` dispatch of `summarize_with_ollama`. -/
inductive ProcResult where
  | ok (out : String)
  | timedOut
  | nonzeroExit
  | notFound
  | otherExc
deriving DecidableEq

/-- Behaviour of the two `ollama` subprocess calls on each attempt index. -/
structure AttemptEnv where
  probe : Nat → ProcResult
  run : Nat → ProcResult

/-- Classified outcome of one loop iteration of `summarize_with_ollama`:
which `except` handler fires (the same handlers catch exceptions from the
probe and from the run call), or validated success / insufficient output. -/
inductive AttemptOutcome where
  | success (text : String)
  | insufficient
  | timedOut
  | cmdFailed
  | exeMissing
  | unexpectedErr
deriving DecidableEq

def msgNothing : String := "No commit messages to summarize."

def msgInsufficient : String := "Summary generation produced insufficient results."

def msgTimeout : String := "Error: Summary generation timed out."

def msgCmdFailed : String := "Error generating summary: Ollama command failed."

def msgNotInstalled : String := "Error: Ollama not installed."

def msgUnexpected : String := "Error generating summary due to an unexpected issue."

/-- Outcome of the attempt numbered `attempt`: run the probe; if it raises,
dispatch on the exception; otherwise run the generation call; if that
raises, dispatch; otherwise validate `result.stdout.strip()` (empty or
shorter than 10 characters is insufficient; longer than 1000 characters is
truncated to 997 plus an ellipsis).  Mirrors src/UniGit.py lines 575-614. -/
def attemptOutcome (env : AttemptEnv) (attempt : Nat) : AttemptOutcome :=
  match env.probe attempt with
  | .ok _ =>
    match env.run attempt with
    | .ok out =>
      let summary := pyStrip out
      if summary = "" ∨ summary.length < 10 then .insufficient
      else .success (if summary.length > 1000 then pyTake summary 997 ++ "..." else summary)
    | .timedOut => .timedOut
    | .nonzeroExit => .cmdFailed
    | .notFound => .exeMissing
    | .otherExc => .unexpectedErr
  | .timedOut => .timedOut
  | .nonzeroExit => .cmdFailed
  | .notFound => .exeMissing
  | .otherExc => .unexpectedErr

/-- Result of running `summarize_with_ollama`: the returned value (`none`
models the Python function falling off the end of the loop and returning
`None`, which happens exactly when `range(max_retries + 1)` is empty), the
caller-owned failure counter afterwards, how many loop iterations ran, and
(instrumentation) the outcome of the iteration that ended the loop. -/
structure SummarizeResult where
  result : Option String
  failuresAfter : Nat
  attemptsUsed : Nat
  terminalOutcome : Option AttemptOutcome
deriving DecidableEq

/-- Account for one more executed loop iteration around a recursive call. -/
def bump (r : SummarizeResult) : SummarizeResult :=
  { r with attemptsUsed := r.attemptsUsed + 1 }

/-- The string returned for each terminal outcome (src/UniGit.py lines
606, 613, 621, 630, 635, 643). -/
def resultOfOutcome : AttemptOutcome → String
  | .success t => t
  | .insufficient => msgInsufficient
  | .timedOut => msgTimeout
  | .cmdFailed => msgCmdFailed
  | .exeMissing => msgNotInstalled
  | .unexpectedErr => msgUnexpected

/-- Whether a terminal outcome executes `self.summary_failures += 1`.
In the source the increment appears in the timeout, command-failure,
missing-executable and unexpected-error handlers (lines 620, 629, 634,
642) but not on the insufficient-result return (line 606) nor on success. -/
def countsAsFailure : AttemptOutcome → Bool
  | .timedOut => true
  | .cmdFailed => true
  | .exeMissing => true
  | .unexpectedErr => true
  | .success _ => false
  | .insufficient => false

/-- The retry loop of `summarize_with_ollama`, by remaining fuel.  The
entry point supplies `fuel = (max_retries + 1).toNat`, the length of
`range(self.max_retries + 1)`.  Retryable outcomes (insufficient output,
timeout, nonzero exit, unexpected exception) continue to the next
iteration while `attempt < max_retries`, otherwise return their message —
incrementing the failure counter except in the insufficient case.  A
missing executable returns immediately regardless of remaining retries
(src/UniGit.py lines 632-635). -/
def summarizeFrom (env : AttemptEnv) (maxRetries : Int) (attempt failures : Nat) :
    Nat → SummarizeResult
  | 0 => ⟨none, failures, 0, none⟩
  | fuel + 1 =>
    match attemptOutcome env attempt with
    | .success t => ⟨some t, failures, 1, some (.success t)⟩
    | .exeMissing => ⟨some msgNotInstalled, failures + 1, 1, some .exeMissing⟩
    | .insufficient =>
      if (attempt : Int) < maxRetries then
        bump (summarizeFrom env maxRetries (attempt + 1) failures fuel)
      else ⟨some msgInsufficient, failures, 1, some .insufficient⟩
    | .timedOut =>
      if (attempt : Int) < maxRetries then
        bump (summarizeFrom env maxRetries (attempt + 1) failures fuel)
      else ⟨some msgTimeout, failures + 1, 1, some .timedOut⟩
    | .cmdFailed =>
      if (attempt : Int) < maxRetries then
        bump (summarizeFrom env maxRetries (attempt + 1) failures fuel)
      else ⟨some msgCmdFailed, failures + 1, 1, some .cmdFailed⟩
    | .unexpectedErr =>
      if (attempt : Int) < maxRetries then
        bump (summarizeFrom env maxRetries (attempt + 1) failures fuel)
      else ⟨some msgUnexpected, failures + 1, 1, some .unexpectedErr⟩

/-- `summarize_with_ollama` (src/UniGit.py lines 558-643): blank commit
text returns the fixed text immediately; otherwise the retry loop runs
for `attempt in range(max_retries + 1)`.  `failures` is the caller-owned
`self.summary_failures` counter on entry. -/
def summarize_with_ollama (env : AttemptEnv) (maxRetries : Int)
    (commit_messages : String) (failures : Nat) : SummarizeResult :=
  if pyStrip commit_messages = "" then ⟨some msgNothing, failures, 0, none⟩
  else summarizeFrom env maxRetries 0 failures (maxRetries + 1).toNat

/-! ## Pull-failure classification (src/UniGit.py line 690)

`git_pull` catches `subprocess.CalledProcessError` from the pull and
classifies `str(e)`: the run is skipped as forbidden when the text
contains `"403"`, contains `"forbidden"` after lower-casing, or contains
`"Permission denied"` with that exact capitalisation. -/

/-- Translated from src/UniGit.py line 690: the access-denial test applied
to the raw error text of a failed pull. -/
def isForbiddenError (e : String) : Bool :=
  strContainsSub e "403" || strContainsSub (pyLower e) "forbidden" ||
    strContainsSub e "Permission denied"

/-- Stated from the claim's words, for comparison with `isForbiddenError`:
classification by case-insensitive substring match for "403", "forbidden"
and "permission denied". -/
def specForbiddenMatch (e : String) : Bool :=
  strContainsSub (pyLower e) "403" || strContainsSub (pyLower e) "forbidden" ||
    strContainsSub (pyLower e) "permission denied"

/-! ## UpdateEngine state and `git_pull` (src/UniGit.py lines 645-737)

The git subprocess calls are modelled by a per-repository environment
recording what each call does.  Run-scoped mutable state (`enable_summary`,
`summary_failures`, `summaries`) is threaded explicitly. -/

/-- A summary record appended by `git_pull` (src/UniGit.py lines 725-730). -/
structure SummaryRecord where
  directory : String
  branch : String
  summary : String
  success : Bool
deriving DecidableEq

/-- The run-scoped mutable state of the engine: the circuit-breaker flag,
the cumulative failure counter, and the in-memory record list. -/
structure EngineState where
  enable_summary : Bool
  summary_failures : Nat
  summaries : List SummaryRecord
deriving DecidableEq

/-- Run configuration fixed for the whole run. -/
structure Config where
  dry_run : Bool
  maxRetries : Int

/-- Result of one git subprocess call: captured stdout, or an exception
(which `git_pull` only handles in its outer `except` clauses, leaving the
state untouched). -/
inductive GitResult (α : Type) where
  | ok (val : α)
  | exc
deriving DecidableEq

/-- Result of the pull subprocess itself, whose `CalledProcessError` is
caught and classified inside `git_pull` (src/UniGit.py lines 682-696);
any other exception reaches the outer handler. -/
inductive PullOutcome where
  | pullOk
  | cpe (err : String)
  | exc
deriving DecidableEq

/-- Behaviour of the external processes for one repository: the two
`rev-parse` snapshots, the pull, the `git log old..new --oneline` output,
and the ollama behaviour used if summarization runs.  In dry-run mode the
fetch and preview log only produce logging, never state changes, so they
are not recorded. -/
structure RepoEnv where
  oldHead : GitResult String
  branchR : GitResult String
  pullR : PullOutcome
  newHead : GitResult String
  logR : GitResult String
  ollama : AttemptEnv

/-- Instrumentation tag describing which exit `git_pull` took. -/
inductive UpdateOutcome where
  | excRaised
  | dryRunPreview
  | forbidden
  | pullError
  | noChange
  | updatedNoSummary
  | breakerTripped
  | summarized
deriving DecidableEq

/-- `git_pull` (src/UniGit.py lines 645-737) for one repository: snapshot
old head and branch; in dry-run mode preview only (state unchanged);
otherwise pull, classify a `CalledProcessError` as forbidden or other and
skip; re-snapshot; on no change skip; otherwise take the new commits and,
when they are non-empty and summaries are enabled, either trip the circuit
breaker (counter above 3) or call the summary generator and append exactly
one record whose `success` field is `not summary.startswith("Error")`.
A `None` summary value (possible only when `max_retries` is negative)
makes the record construction raise `AttributeError`, caught by the outer
handler after the counter mutation and before the append. -/
def git_pull (cfg : Config) (env : RepoEnv) (dirName : String) (st : EngineState) :
    UpdateOutcome × EngineState :=
  match env.oldHead with
  | .exc => (.excRaised, st)
  | .ok old_head =>
    match env.branchR with
    | .exc => (.excRaised, st)
    | .ok branch =>
      if cfg.dry_run then (.dryRunPreview, st)
      else
        match env.pullR with
        | .cpe e =>
          if isForbiddenError e then (.forbidden, st) else (.pullError, st)
        | .exc => (.excRaised, st)
        | .pullOk =>
          match env.newHead with
          | .exc => (.excRaised, st)
          | .ok new_head =>
            if old_head = new_head then (.noChange, st)
            else
              match env.logR with
              | .exc => (.excRaised, st)
              | .ok raw =>
                let new_commits := pyStrip raw
                if new_commits ≠ "" ∧ st.enable_summary = true then
                  if st.summary_failures > 3 then
                    (.breakerTripped, { st with enable_summary := false })
                  else
                    let r := summarize_with_ollama env.ollama cfg.maxRetries
                      new_commits st.summary_failures
                    match r.result with
                    | none => (.excRaised, { st with summary_failures := r.failuresAfter })
                    | some s =>
                      (.summarized,
                        { st with
                          summary_failures := r.failuresAfter,
                          summaries := st.summaries ++
                            [⟨dirName, branch, s, !(pyStartsWith s "Error")⟩] })
                else (.updatedNoSummary, st)

/-- The engine loop over the repositories found by the recursive sweep, in
discovery order (src/UniGit.py lines 750-768: each found repository is
pulled and the loop continues regardless of its outcome). -/
def runRepos (cfg : Config) : List (String × RepoEnv) → EngineState →
    List UpdateOutcome × EngineState
  | [], st => ([], st)
  | (d, env) :: rest, st =>
    let p := git_pull cfg env d st
    let r := runRepos cfg rest p.2
    (p.1 :: r.1, r.2)

/-! ## Repository discovery

Two distinct walkers exist in the source.  `git_pull_recursive`
(src/UniGit.py lines 739-777) drives the update sweep: it lists a
directory, skips hidden names other than `.git`, pulls any subdirectory
containing a `.git` directory and — crucially — does not recurse into it.
`find_git_repositories` (src/UniGit.py lines 250-272) is the `os.walk`
based scan used by `check_repo_exists`: it records a directory containing
`.git`, prunes only the `.git` entry from descent, filters hidden names,
and keeps walking into the repository's ordinary subdirectories. -/

/-- An abstract directory tree (names are unique within a real directory
listing; the listing order is the list order). -/
inductive FsTree where
  | file (name : String)
  | dir (name : String) (children : List FsTree)

/-- Whether a directory listing contains a `.git` subdirectory, i.e. the
directory is a repository root. -/
def dirIsRepo (children : List FsTree) : Bool :=
  children.any fun t =>
    match t with
    | .dir n _ => n == ".git"
    | .file _ => false

/-- The update sweep `git_pull_recursive` (src/UniGit.py lines 750-771),
reduced to the ordered list of repository paths it pulls: hidden entries
other than `.git` are skipped; a subdirectory that is a repository is
pulled and not entered; any other subdirectory is recursed into. -/
def git_pull_recursive (path : List String) : List FsTree → List (List String)
  | [] => []
  | .file _ :: rest => git_pull_recursive path rest
  | .dir n cs :: rest =>
    (if pyStartsWith n "." && n != ".git" then []
     else if dirIsRepo cs then [path ++ [n]]
     else git_pull_recursive (path ++ [n]) cs)
    ++ git_pull_recursive path rest

/-- The descent of `find_git_repositories` through one directory listing
(src/UniGit.py lines 263-270): `skipGit` records whether the current
directory was a repository root, in which case `dirs.remove('.git')` has
pruned the first `.git` entry; the remaining entries are filtered by
`not d.startswith('.') or d == '.git'` and walked in order, each visited
directory contributing its own path first (top-down `os.walk` order). -/
def findKids (path : List String) (skipGit : Bool) : List FsTree → List (List String)
  | [] => []
  | .file _ :: rest => findKids path skipGit rest
  | .dir n cs :: rest =>
    if skipGit && n == ".git" then findKids path false rest
    else if !pyStartsWith n "." || n == ".git" then
      ((if dirIsRepo cs then [path ++ [n]] else []) ++
        findKids (path ++ [n]) (dirIsRepo cs) cs)
      ++ findKids path skipGit rest
    else findKids path skipGit rest

/-- `find_git_repositories` (src/UniGit.py lines 250-272) on the listing
of the start directory; the start directory itself is the empty path. -/
def find_git_repositories (root : List FsTree) : List (List String) :=
  (if dirIsRepo root then [[]] else []) ++ findKids [] (dirIsRepo root) root

/-! ## SummaryLedger: `save_summaries` (src/UniGit.py lines 779-820)

Modelled as a pure function from the current state and the existing file
content (`none` when the file does not exist) to the new file content;
`none` as result means the file is not touched. -/

/-- One block written per successful record (src/UniGit.py lines 810-812). -/
def recordBlock (s : SummaryRecord) : String :=
  "Directory: " ++ s.directory ++ "\n" ++ "Branch: " ++ s.branch ++ "\n" ++
    s.summary ++ "\n\n"

/-- The fixed-width separator written before pre-existing content
(src/UniGit.py line 814). -/
def sepLine : String := String.mk (List.replicate 50 '-') ++ "\n\n"

/-- `save_summaries` (src/UniGit.py lines 779-820): no-op when the record
list is empty, summaries are disabled, or the run is a dry run; otherwise
keep only the records with `success = True` — no-op if none remain — and
rewrite the file as a dated header, one block per surviving record in
insertion order, and, exactly when prior content existed and was
non-empty, the separator followed by that content verbatim. -/
def save_summaries (enable dryRun : Bool) (summaries : List SummaryRecord)
    (current_date : String) (existing : Option String) : Option String :=
  if summaries = [] ∨ enable = false ∨ dryRun = true then none
  else
    let valid := summaries.filter fun s => s.success
    if valid = [] then none
    else
      let existing_content := existing.getD ""
      some ("Date: " ++ current_date ++ "\n\n" ++
        String.join (valid.map recordBlock) ++
        (if existing_content ≠ "" then sepLine ++ existing_content else ""))

/-! ## Commit-range listing (src/UniGit.py lines 708-712)

`git_pull` obtains the new commits as the verbatim output of
`git log old..new --oneline`; no reordering is applied on the engine
side.  The external executable's emission is modelled over a linear
history given oldest first. -/

/-- Modelled from the spec: the external `git log from..to --oneline`
emission for a linear history listed oldest first — the commits after
`fromIdx` up to `toIdx`, newest first (spec section 8: "newest-first, as
`git log` emits"). -/
def gitLogOneline (history : List String) (fromIdx toIdx : Nat) : List String :=
  ((history.take (toIdx + 1)).drop (fromIdx + 1)).reverse

/-- The gateway operation `commitsBetween`: the engine consumes the log
output verbatim (src/UniGit.py lines 708-712 apply only `.strip()`, never
a reversal), so the returned order is exactly the emitted order. -/
def commitsBetween (history : List String) (fromIdx toIdx : Nat) : List String :=
  gitLogOneline history fromIdx toIdx

/-! ## Concrete fixtures used by witnesses and counterexamples -/

/-- Ollama behaviour that always produces a too-short (under 10
characters) summary. -/
def envShortOllama : AttemptEnv := ⟨fun _ => .ok "", fun _ => .ok "short"⟩

/-- Ollama behaviour that always produces a valid summary. -/
def envGoodOllama : AttemptEnv := ⟨fun _ => .ok "", fun _ => .ok "A reasonable summary text."⟩

/-- Ollama behaviour whose liveness probe always exits nonzero (service
unreachable though the executable exists). -/
def envProbeCpe : AttemptEnv := ⟨fun _ => .nonzeroExit, fun _ => .ok "A reasonable summary text."⟩

/-- Ollama behaviour where the executable is missing. -/
def envNoExe : AttemptEnv := ⟨fun _ => .notFound, fun _ => .ok "irrelevant"⟩

/-- A live (non-dry-run) configuration with `max_retries = 2`, the
source's default. -/
def cfgLive : Config := ⟨false, 2⟩

/-- A repository whose pull updates the head and whose summary attempts
all return insufficient output. -/
def envIns : RepoEnv :=
  ⟨.ok "aaa", .ok "main", .pullOk, .ok "bbb", .ok "deadbeef fix stuff", envShortOllama⟩

/-- A repository whose pull fails with an all-lowercase access-denial
message. -/
def envPermDenied : RepoEnv :=
  ⟨.ok "aaa", .ok "main", .cpe "remote: permission denied", .ok "bbb",
    .ok "one change", envGoodOllama⟩

/-- A repository whose pull fails with an HTTP 403 message. -/
def envForb : RepoEnv :=
  ⟨.ok "aaa", .ok "main", .cpe "HTTP 403 response", .ok "bbb",
    .ok "one change", envGoodOllama⟩

/-- A repository whose pull updates the head with new commits and a
well-behaved summary service. -/
def envBrk : RepoEnv :=
  ⟨.ok "aaa", .ok "main", .pullOk, .ok "bbb", .ok "feed one change", envGoodOllama⟩

/-! ## Helper lemmas about the summary generator -/

theorem summarizeFrom_isSome (env : AttemptEnv) (mr : Int) :
    ∀ (fuel attempt failures : Nat), (mr - (attempt : Int)).toNat < fuel →
      (summarizeFrom env mr attempt failures fuel).result.isSome = true := by
  intro fuel
  induction fuel with
  | zero => intro attempt failures h; omega
  | succ n ih =>
    intro attempt failures h
    simp only [summarizeFrom]
    cases ho : attemptOutcome env attempt with
    | success t => simp
    | exeMissing => simp
    | insufficient =>
      by_cases hlt : (attempt : Int) < mr
      · simpa [hlt, bump] using ih (attempt + 1) failures (by omega)
      · simp [hlt]
    | timedOut =>
      by_cases hlt : (attempt : Int) < mr
      · simpa [hlt, bump] using ih (attempt + 1) failures (by omega)
      · simp [hlt]
    | cmdFailed =>
      by_cases hlt : (attempt : Int) < mr
      · simpa [hlt, bump] using ih (attempt + 1) failures (by omega)
      · simp [hlt]
    | unexpectedErr =>
      by_cases hlt : (attempt : Int) < mr
      · simpa [hlt, bump] using ih (attempt + 1) failures (by omega)
      · simp [hlt]

theorem summarizeFrom_attempts_le (env : AttemptEnv) (mr : Int) :
    ∀ (fuel attempt failures : Nat),
      (summarizeFrom env mr attempt failures fuel).attemptsUsed ≤ fuel := by
  intro fuel
  induction fuel with
  | zero => intro attempt failures; simp [summarizeFrom]
  | succ n ih =>
    intro attempt failures
    simp only [summarizeFrom]
    cases ho : attemptOutcome env attempt with
    | success t => simp
    | exeMissing => simp
    | insufficient =>
      by_cases hlt : (attempt : Int) < mr
      · have := ih (attempt + 1) failures
        simp only [hlt, if_true, bump]
        omega
      · simp [hlt]
    | timedOut =>
      by_cases hlt : (attempt : Int) < mr
      · have := ih (attempt + 1) failures
        simp only [hlt, if_true, bump]
        omega
      · simp [hlt]
    | cmdFailed =>
      by_cases hlt : (attempt : Int) < mr
      · have := ih (attempt + 1) failures
        simp only [hlt, if_true, bump]
        omega
      · simp [hlt]
    | unexpectedErr =>
      by_cases hlt : (attempt : Int) < mr
      · have := ih (attempt + 1) failures
        simp only [hlt, if_true, bump]
        omega
      · simp [hlt]

theorem summarizeFrom_attempts_pos (env : AttemptEnv) (mr : Int)
    (fuel attempt failures : Nat) :
    1 ≤ (summarizeFrom env mr attempt failures (fuel + 1)).attemptsUsed := by
  simp only [summarizeFrom]
  cases ho : attemptOutcome env attempt with
  | success t => simp
  | exeMissing => simp
  | insufficient =>
    by_cases hlt : (attempt : Int) < mr
    · simp [hlt, bump]
    · simp [hlt]
  | timedOut =>
    by_cases hlt : (attempt : Int) < mr
    · simp [hlt, bump]
    · simp [hlt]
  | cmdFailed =>
    by_cases hlt : (attempt : Int) < mr
    · simp [hlt, bump]
    · simp [hlt]
  | unexpectedErr =>
    by_cases hlt : (attempt : Int) < mr
    · simp [hlt, bump]
    · simp [hlt]

theorem summarizeFrom_spec (env : AttemptEnv) (mr : Int) :
    ∀ (fuel attempt failures : Nat) (o : AttemptOutcome),
      (summarizeFrom env mr attempt failures fuel).terminalOutcome = some o →
        (summarizeFrom env mr attempt failures fuel).result = some (resultOfOutcome o) ∧
        (summarizeFrom env mr attempt failures fuel).failuresAfter =
          (if countsAsFailure o then failures + 1 else failures) := by
  intro fuel
  induction fuel with
  | zero => intro attempt failures o h; simp [summarizeFrom] at h
  | succ n ih =>
    intro attempt failures o h
    simp only [summarizeFrom] at h ⊢
    generalize hg : attemptOutcome env attempt = g at h ⊢
    cases g with
    | success t =>
      simp at h
      subst h
      simp [resultOfOutcome, countsAsFailure]
    | exeMissing =>
      simp at h
      subst h
      simp [resultOfOutcome, countsAsFailure]
    | insufficient =>
      by_cases hlt : (attempt : Int) < mr
      · simp only [hlt, if_true, bump] at h ⊢
        exact ih (attempt + 1) failures o h
      · simp only [hlt, if_false] at h ⊢
        simp at h
        subst h
        simp [resultOfOutcome, countsAsFailure]
    | timedOut =>
      by_cases hlt : (attempt : Int) < mr
      · simp only [hlt, if_true, bump] at h ⊢
        exact ih (attempt + 1) failures o h
      · simp only [hlt, if_false] at h ⊢
        simp at h
        subst h
        simp [resultOfOutcome, countsAsFailure]
    | cmdFailed =>
      by_cases hlt : (attempt : Int) < mr
      · simp only [hlt, if_true, bump] at h ⊢
        exact ih (attempt + 1) failures o h
      · simp only [hlt, if_false] at h ⊢
        simp at h
        subst h
        simp [resultOfOutcome, countsAsFailure]
    | unexpectedErr =>
      by_cases hlt : (attempt : Int) < mr
      · simp only [hlt, if_true, bump] at h ⊢
        exact ih (attempt + 1) failures o h
      · simp only [hlt, if_false] at h ⊢
        simp at h
        subst h
        simp [resultOfOutcome, countsAsFailure]

theorem summarizeFrom_cmdFailed_retry (env : AttemptEnv) (mr : Int)
    (attempt f fuel : Nat)
    (ho : attemptOutcome env attempt = AttemptOutcome.cmdFailed)
    (hlt : (attempt : Int) < mr) :
    summarizeFrom env mr attempt f (fuel + 1) =
      bump (summarizeFrom env mr (attempt + 1) f fuel) := by
  simp only [summarizeFrom, ho, hlt, if_true]

/-! ## Claims about the summary generator (C2, C8, C10) -/

/-- C2 counterexample: with `max_retries = 1` and both attempts producing
a too-short summary, the generator ends with the terminal
insufficient-result failure (after retries exhausted, two attempts used)
and the caller-owned failure counter stays at 0 instead of being
incremented to 1 as the claim requires for every terminal failure. -/
theorem claim_C2_counterexample :
    summarize_with_ollama envShortOllama 1 "three commits listed" 0 =
      ⟨some msgInsufficient, 0, 2, some AttemptOutcome.insufficient⟩ := by decide

/-- C2 (amended): when the generator's retry loop ends with outcome `o`,
the returned string is the fixed message (or validated text) for `o`, and
the caller-owned failure counter is incremented by exactly one when `o`
is a timeout, command failure, missing executable or unexpected error,
and left unchanged otherwise — in particular on success and, contrary to
the original claim, on the terminal insufficient-result failure. -/
theorem claim_C2 (env : AttemptEnv) (mr : Int) (input : String) (f : Nat)
    (o : AttemptOutcome)
    (h : (summarize_with_ollama env mr input f).terminalOutcome = some o) :
    (summarize_with_ollama env mr input f).result = some (resultOfOutcome o) ∧
    (summarize_with_ollama env mr input f).failuresAfter =
      (if countsAsFailure o then f + 1 else f) := by
  unfold summarize_with_ollama at h ⊢
  by_cases hb : pyStrip input = ""
  · simp [hb] at h
  · simp only [hb, if_false] at h ⊢
    exact summarizeFrom_spec env mr _ 0 f o h

/-- Witness for C2: a terminal timeout failure increments the counter by
exactly one and returns the timeout message. -/
theorem claim_C2_witness :
    ((summarize_with_ollama ⟨fun _ => ProcResult.ok "", fun _ => ProcResult.timedOut⟩
        0 "commit alpha" 7).terminalOutcome = some AttemptOutcome.timedOut) ∧
    ((summarize_with_ollama ⟨fun _ => ProcResult.ok "", fun _ => ProcResult.timedOut⟩
        0 "commit alpha" 7).result = some (resultOfOutcome AttemptOutcome.timedOut) ∧
      (summarize_with_ollama ⟨fun _ => ProcResult.ok "", fun _ => ProcResult.timedOut⟩
        0 "commit alpha" 7).failuresAfter =
        (if countsAsFailure AttemptOutcome.timedOut then 7 + 1 else 7)) :=
  ⟨by decide,
    claim_C2 ⟨fun _ => ProcResult.ok "", fun _ => ProcResult.timedOut⟩
      0 "commit alpha" 7 AttemptOutcome.timedOut (by decide)⟩

/-- C8 counterexample: the liveness probe fails (nonzero exit: service
unreachable though the executable exists) on the first attempt with
`max_retries = 1`, yet the call is not terminal on that first detection —
a second attempt is consumed (`attemptsUsed = 2`), contradicting "no
further attempts consumed for the call". -/
theorem claim_C8_counterexample :
    summarize_with_ollama envProbeCpe 1 "pending commits" 0 =
      ⟨some msgCmdFailed, 1, 2, some AttemptOutcome.cmdFailed⟩ := by decide

/-- C8 (amended): only the missing-executable case (`FileNotFoundError`)
is terminal on first detection — it consumes exactly one attempt and
increments the counter once regardless of how many retries remain — while
a liveness-probe failure with a nonzero exit is retried like a command
failure, consuming a further attempt whenever retries remain. -/
theorem claim_C8 (env : AttemptEnv) (mr : Int) (input : String) (f : Nat) :
    (0 ≤ mr → pyStrip input ≠ "" → env.probe 0 = ProcResult.notFound →
      summarize_with_ollama env mr input f =
        ⟨some msgNotInstalled, f + 1, 1, some AttemptOutcome.exeMissing⟩) ∧
    (1 ≤ mr → pyStrip input ≠ "" → env.probe 0 = ProcResult.nonzeroExit →
      2 ≤ (summarize_with_ollama env mr input f).attemptsUsed) := by
  constructor
  · intro h0 hb hp
    unfold summarize_with_ollama
    obtain ⟨k, hk⟩ : ∃ k, (mr + 1).toNat = k + 1 := ⟨(mr + 1).toNat - 1, by omega⟩
    rw [if_neg hb, hk]
    simp [summarizeFrom, attemptOutcome, hp]
  · intro h1 hb hp
    unfold summarize_with_ollama
    obtain ⟨k, hk⟩ : ∃ k, (mr + 1).toNat = k + 2 := ⟨(mr + 1).toNat - 2, by omega⟩
    rw [if_neg hb, hk]
    have hlt : ((0 : Nat) : Int) < mr := by omega
    rw [summarizeFrom_cmdFailed_retry env mr 0 f (k + 1) (by simp [attemptOutcome, hp]) hlt]
    simp only [bump]
    have := summarizeFrom_attempts_pos env mr k (0 + 1) f
    omega

/-- Witness for C8: a missing executable with five retries remaining is
still terminal after exactly one attempt. -/
theorem claim_C8_witness :
    ((0 : Int) ≤ 5 ∧ pyStrip "pending commits" ≠ "" ∧
      envNoExe.probe 0 = ProcResult.notFound) ∧
    summarize_with_ollama envNoExe 5 "pending commits" 0 =
      ⟨some msgNotInstalled, 0 + 1, 1, some AttemptOutcome.exeMissing⟩ :=
  ⟨⟨by decide, by decide, rfl⟩,
    (claim_C8 envNoExe 5 "pending commits" 0).1 (by decide) (by decide) rfl⟩

/-- C10: with `max_retries ≥ 0` the generator is total for every modelled
subprocess behaviour — it returns a string (every exception is caught by
a handler) after at most `max_retries + 1` loop iterations; with
`max_retries < 0` and non-blank input, `range(max_retries + 1)` is empty,
the loop body never runs, and the function produces no result value
(Python `None`). -/
theorem claim_C10 (env : AttemptEnv) (mr : Int) (input : String) (f : Nat) :
    (0 ≤ mr →
      (summarize_with_ollama env mr input f).result.isSome = true ∧
      (summarize_with_ollama env mr input f).attemptsUsed ≤ (mr + 1).toNat) ∧
    (mr < 0 → pyStrip input ≠ "" →
      summarize_with_ollama env mr input f = ⟨none, f, 0, none⟩) := by
  constructor
  · intro h0
    unfold summarize_with_ollama
    by_cases hb : pyStrip input = ""
    · simp [hb]
    · rw [if_neg hb]
      exact ⟨summarizeFrom_isSome env mr _ 0 f (by omega),
        summarizeFrom_attempts_le env mr _ 0 f⟩
  · intro hneg hb
    unfold summarize_with_ollama
    have h0 : (mr + 1).toNat = 0 := by omega
    rw [if_neg hb, h0]
    rfl

/-- Witness for C10: a concrete run with `max_retries = 2` and persistent
timeouts returns a string within three attempts. -/
theorem claim_C10_witness :
    ((0 : Int) ≤ 2) ∧
    ((summarize_with_ollama ⟨fun _ => ProcResult.timedOut, fun _ => ProcResult.ok ""⟩
        2 "two commits here" 0).result.isSome = true ∧
      (summarize_with_ollama ⟨fun _ => ProcResult.timedOut, fun _ => ProcResult.ok ""⟩
        2 "two commits here" 0).attemptsUsed ≤ ((2 : Int) + 1).toNat) :=
  ⟨by decide,
    (claim_C10 ⟨fun _ => ProcResult.timedOut, fun _ => ProcResult.ok ""⟩
      2 "two commits here" 0).1 (by decide)⟩

/-! ## Helper lemmas about the update engine -/

theorem summarize_result_isSome (env : AttemptEnv) (mr : Int) (input : String)
    (f : Nat) (hmr : 0 ≤ mr) :
    (summarize_with_ollama env mr input f).result.isSome = true := by
  unfold summarize_with_ollama
  by_cases hb : pyStrip input = ""
  · simp [hb]
  · rw [if_neg hb]
    exact summarizeFrom_isSome env mr _ 0 f (by omega)

theorem git_pull_state_of_disabled (cfg : Config) (env : RepoEnv) (d : String)
    (st : EngineState) (h : st.enable_summary = false) :
    (git_pull cfg env d st).2 = st := by
  unfold git_pull
  rcases env with ⟨oh, br, pr, nh, lg, ol⟩
  cases oh with
  | exc => rfl
  | ok o =>
    cases br with
    | exc => rfl
    | ok b =>
      by_cases hd : cfg.dry_run
      · simp [hd]
      · simp only [hd, if_false, Bool.false_eq_true]
        cases pr with
        | cpe e => by_cases hf : isForbiddenError e <;> simp [hf]
        | exc => rfl
        | pullOk =>
          cases nh with
          | exc => rfl
          | ok n =>
            by_cases he : o = n
            · simp [he]
            · simp only [he, if_false]
              cases lg with
              | exc => rfl
              | ok raw => simp [h]

theorem runRepos_state_of_disabled (cfg : Config) :
    ∀ (repos : List (String × RepoEnv)) (st : EngineState),
      st.enable_summary = false → (runRepos cfg repos st).2 = st := by
  intro repos
  induction repos with
  | nil => intro st h; rfl
  | cons p rest ih =>
    intro st h
    obtain ⟨d, env⟩ := p
    have hstep : (runRepos cfg ((d, env) :: rest) st).2 =
        (runRepos cfg rest (git_pull cfg env d st).2).2 := rfl
    rw [hstep, git_pull_state_of_disabled cfg env d st h]
    exact ih st h

/-! ## Claims about the update engine (C1, C3, C7) -/

/-- C1: when a repository qualifies for summarization (live run, pull
succeeded, head changed, non-empty commit list, summaries enabled) and the
cumulative failure counter already exceeds 3, `git_pull` flips
`enable_summary` to `false` and appends nothing; with the flag off, every
subsequent repository of the run leaves the whole engine state — flag,
counter and record list — unchanged, so the breaker stays tripped and no
later repository is summarized, whatever its update outcome would be. -/
theorem claim_C1 (cfg : Config) (env : RepoEnv) (d : String) (st : EngineState)
    (o b n raw : String)
    (hdry : cfg.dry_run = false)
    (hold : env.oldHead = GitResult.ok o) (hbr : env.branchR = GitResult.ok b)
    (hpull : env.pullR = PullOutcome.pullOk) (hnew : env.newHead = GitResult.ok n)
    (hchange : o ≠ n) (hlog : env.logR = GitResult.ok raw)
    (hnonempty : pyStrip raw ≠ "")
    (hen : st.enable_summary = true) (hfail : 3 < st.summary_failures) :
    git_pull cfg env d st =
      (UpdateOutcome.breakerTripped, { st with enable_summary := false }) ∧
    ∀ rest : List (String × RepoEnv),
      (runRepos cfg rest { st with enable_summary := false }).2 =
        { st with enable_summary := false } := by
  constructor
  · unfold git_pull
    rw [hold, hbr, hpull, hnew, hlog]
    simp [hdry, hchange, hnonempty, hen, hfail]
  · intro rest
    exact runRepos_state_of_disabled cfg rest _ rfl

/-- Witness for C1: a qualifying repository met with a counter of 4 trips
the breaker, and a subsequent qualifying repository leaves the state
untouched. -/
theorem claim_C1_witness :
    (git_pull cfgLive envBrk "repoX" ⟨true, 4, []⟩ =
      (UpdateOutcome.breakerTripped, ⟨false, 4, []⟩)) ∧
    (runRepos cfgLive [("repoY", envBrk)] ⟨false, 4, []⟩).2 = ⟨false, 4, []⟩ := by
  have h := claim_C1 cfgLive envBrk "repoX" ⟨true, 4, []⟩ "aaa" "main" "bbb"
    "feed one change" rfl rfl rfl rfl rfl (by decide) rfl (by decide) rfl (by decide)
  exact ⟨h.1, h.2 [("repoY", envBrk)]⟩

/-- C3 counterexample: summarization runs for an updated repository, every
attempt returns insufficient output, and the generator ends in the
terminal insufficient-result failure — yet the appended record has
`success = true`, because the code computes the flag as
`not summary.startswith("Error")` and the insufficient-result message does
not start with "Error".  The claim requires `succeeded = false` for every
terminal failure. -/
theorem claim_C3_counterexample :
    git_pull cfgLive envIns "repoA" ⟨true, 0, []⟩ =
      (UpdateOutcome.summarized,
        ⟨true, 0, [⟨"repoA", "main", msgInsufficient, true⟩]⟩) := by decide

/-- C3 (amended): whenever summarization runs for an updated repository
with a non-empty commit list (and `max_retries ≥ 0`), exactly one record
is appended, whose `success` field is `not summary.startswith("Error")`:
`false` for the timeout, command-failure, missing-executable and
unexpected-error messages, but `true` for the insufficient-result
message (and for any genuine summary text). -/
theorem claim_C3 (cfg : Config) (env : RepoEnv) (d : String) (st : EngineState)
    (o b n raw : String)
    (hdry : cfg.dry_run = false)
    (hold : env.oldHead = GitResult.ok o) (hbr : env.branchR = GitResult.ok b)
    (hpull : env.pullR = PullOutcome.pullOk) (hnew : env.newHead = GitResult.ok n)
    (hchange : o ≠ n) (hlog : env.logR = GitResult.ok raw)
    (hnonempty : pyStrip raw ≠ "")
    (hen : st.enable_summary = true) (hfail : st.summary_failures ≤ 3)
    (hmr : 0 ≤ cfg.maxRetries) :
    ∃ s, (summarize_with_ollama env.ollama cfg.maxRetries (pyStrip raw)
        st.summary_failures).result = some s ∧
      (git_pull cfg env d st).1 = UpdateOutcome.summarized ∧
      (git_pull cfg env d st).2.summaries =
        st.summaries ++ [⟨d, b, s, !(pyStartsWith s "Error")⟩] ∧
      pyStartsWith msgInsufficient "Error" = false ∧
      pyStartsWith msgTimeout "Error" = true ∧
      pyStartsWith msgCmdFailed "Error" = true ∧
      pyStartsWith msgNotInstalled "Error" = true ∧
      pyStartsWith msgUnexpected "Error" = true := by
  obtain ⟨s, hs⟩ := Option.isSome_iff_exists.mp
    (summarize_result_isSome env.ollama cfg.maxRetries (pyStrip raw)
      st.summary_failures hmr)
  have hnb : ¬(st.summary_failures > 3) := by omega
  have hgp : git_pull cfg env d st =
      (UpdateOutcome.summarized,
        { st with
          summary_failures := (summarize_with_ollama env.ollama cfg.maxRetries
            (pyStrip raw) st.summary_failures).failuresAfter,
          summaries := st.summaries ++ [⟨d, b, s, !(pyStartsWith s "Error")⟩] }) := by
    unfold git_pull
    rw [hold, hbr, hpull, hnew, hlog]
    simp [hdry, hchange, hnonempty, hen, hnb, hs]
  refine ⟨s, hs, ?_, ?_, by decide, by decide, by decide, by decide, by decide⟩
  · rw [hgp]
  · rw [hgp]

/-- Witness for C3: the amended statement applied to the concrete
insufficient-output repository. -/
theorem claim_C3_witness :
    (cfgLive.dry_run = false ∧ pyStrip "deadbeef fix stuff" ≠ "" ∧
      (0 : Int) ≤ cfgLive.maxRetries) ∧
    (∃ s, (summarize_with_ollama envIns.ollama cfgLive.maxRetries
        (pyStrip "deadbeef fix stuff") 0).result = some s ∧
      (git_pull cfgLive envIns "repoA" ⟨true, 0, []⟩).1 = UpdateOutcome.summarized ∧
      (git_pull cfgLive envIns "repoA" ⟨true, 0, []⟩).2.summaries =
        [] ++ [⟨"repoA", "main", s, !(pyStartsWith s "Error")⟩] ∧
      pyStartsWith msgInsufficient "Error" = false ∧
      pyStartsWith msgTimeout "Error" = true ∧
      pyStartsWith msgCmdFailed "Error" = true ∧
      pyStartsWith msgNotInstalled "Error" = true ∧
      pyStartsWith msgUnexpected "Error" = true) := by
  refine ⟨⟨rfl, by decide, by decide⟩, ?_⟩
  exact claim_C3 cfgLive envIns "repoA" ⟨true, 0, []⟩ "aaa" "main" "bbb"
    "deadbeef fix stuff" rfl rfl rfl rfl rfl (by decide) rfl (by decide)
    (by decide) (by decide) (by decide)

/-- C7 counterexample: the raw pull-error text "remote: permission denied"
contains "permission denied" as a case-insensitive substring, so the claim
classifies the failure as Forbidden; the code matches "Permission denied"
case-sensitively, classifies this text as Other, and `git_pull` records a
plain git error rather than a forbidden skip. -/
theorem claim_C7_counterexample :
    specForbiddenMatch "remote: permission denied" = true ∧
    isForbiddenError "remote: permission denied" = false ∧
    git_pull cfgLive envPermDenied "repoZ" ⟨true, 0, []⟩ =
      (UpdateOutcome.pullError, ⟨true, 0, []⟩) :=
  ⟨by decide, by decide, by decide⟩

/-- C7 (amended): a pull failure is classified Forbidden exactly when its
raw error text contains "403", contains "forbidden" case-insensitively,
or contains "Permission denied" with that exact capitalisation (texts
matching the claimed patterns only in other casings classify as Other);
either way the repository is skipped with the engine state unchanged and
the run proceeds to process the remaining repositories identically. -/
theorem claim_C7 (cfg : Config) (env : RepoEnv) (d : String) (st : EngineState)
    (o b t : String) (rest : List (String × RepoEnv))
    (hdry : cfg.dry_run = false)
    (hold : env.oldHead = GitResult.ok o) (hbr : env.branchR = GitResult.ok b)
    (hpull : env.pullR = PullOutcome.cpe t) :
    git_pull cfg env d st =
      ((if isForbiddenError t then UpdateOutcome.forbidden
        else UpdateOutcome.pullError), st) ∧
    runRepos cfg ((d, env) :: rest) st =
      ((if isForbiddenError t then UpdateOutcome.forbidden
        else UpdateOutcome.pullError) :: (runRepos cfg rest st).1,
        (runRepos cfg rest st).2) := by
  have h1 : git_pull cfg env d st =
      ((if isForbiddenError t then UpdateOutcome.forbidden
        else UpdateOutcome.pullError), st) := by
    unfold git_pull
    rw [hold, hbr, hpull]
    by_cases hf : isForbiddenError t <;> simp [hdry, hf]
  refine ⟨h1, ?_⟩
  have hstep : runRepos cfg ((d, env) :: rest) st =
      ((git_pull cfg env d st).1 ::
        (runRepos cfg rest (git_pull cfg env d st).2).1,
        (runRepos cfg rest (git_pull cfg env d st).2).2) := rfl
  rw [hstep, h1]

/-- Witness for C7: an HTTP 403 pull failure on the first repository of a
run is classified Forbidden, the state is unchanged, and the rest of the
run is unaffected. -/
theorem claim_C7_witness :
    (git_pull cfgLive envForb "repoW" ⟨true, 0, []⟩ =
      ((if isForbiddenError "HTTP 403 response" then UpdateOutcome.forbidden
        else UpdateOutcome.pullError), ⟨true, 0, []⟩)) ∧
    runRepos cfgLive [("repoW", envForb)] ⟨true, 0, []⟩ =
      ((if isForbiddenError "HTTP 403 response" then UpdateOutcome.forbidden
        else UpdateOutcome.pullError) :: (runRepos cfgLive [] ⟨true, 0, []⟩).1,
        (runRepos cfgLive [] ⟨true, 0, []⟩).2) :=
  claim_C7 cfgLive envForb "repoW" ⟨true, 0, []⟩ "aaa" "main"
    "HTTP 403 response" [] rfl rfl rfl rfl

/-! ## Claims about discovery, the ledger and the commit range (C4, C5, C6, C9) -/

/-- The example tree for C4: repository `A` contains, inside its ordinary
subdirectory `sub`, a nested repository `B`. -/
def exTree : List FsTree :=
  [.dir "A" [.dir ".git" [], .dir "sub" [.dir "B" [.dir ".git" []]]]]

/-- C4 counterexample: in `exTree` the repository `A/sub/B` is nested
inside ordinary subdirectories of repository `A`; the recursive update
sweep pulls only `A` and never reaches `B`, while the `os.walk`-based
scan discovers both — so the sweep prunes the whole repository tree, not
just the metadata directory, contradicting the claim. -/
theorem claim_C4_counterexample :
    git_pull_recursive [] exTree = [["A"]] ∧
    ¬ (["A", "sub", "B"] ∈ git_pull_recursive [] exTree) ∧
    find_git_repositories exTree = [["A"], ["A", "sub", "B"]] := by
  have h1 : git_pull_recursive [] exTree = [["A"]] := by
    simp +decide [exTree, git_pull_recursive, dirIsRepo, pyStartsWith]
  have h2 : find_git_repositories exTree = [["A"], ["A", "sub", "B"]] := by
    simp +decide [exTree, find_git_repositories, findKids, dirIsRepo, pyStartsWith]
  refine ⟨h1, ?_, h2⟩
  rw [h1]
  decide

/-- C4 (amended): the update sweep prunes the whole tree of a discovered
repository — a non-hidden subdirectory containing `.git` is pulled and
its contents are never entered, so a repository nested inside ordinary
subdirectories of another repository is not processed by the sweep — and
skips hidden directories other than `.git`; the `os.walk`-based
`find_git_repositories` scan instead prunes only the `.git` entry and
keeps walking into the repository's ordinary subdirectories, so it does
discover nested repositories as separate entries. -/
theorem claim_C4 (path : List String) (n : String) (cs rest : List FsTree) :
    (pyStartsWith n "." = false → dirIsRepo cs = true →
      git_pull_recursive path (FsTree.dir n cs :: rest) =
        (path ++ [n]) :: git_pull_recursive path rest) ∧
    (pyStartsWith n "." = true → n ≠ ".git" →
      git_pull_recursive path (FsTree.dir n cs :: rest) =
        git_pull_recursive path rest) ∧
    (∀ skipGit : Bool, pyStartsWith n "." = false → dirIsRepo cs = true →
      findKids path skipGit (FsTree.dir n cs :: rest) =
        ((path ++ [n]) :: findKids (path ++ [n]) true cs) ++
          findKids path skipGit rest) := by
  refine ⟨?_, ?_, ?_⟩
  · intro h1 h2
    simp [git_pull_recursive, h1, h2]
  · intro h1 h2
    simp [git_pull_recursive, h1, h2]
  · intro skipGit h1 h2
    have hne : n ≠ ".git" := by
      intro h
      subst h
      exact absurd h1 (by decide)
    simp [findKids, h1, h2, hne]

/-- Witness for C4: the non-hidden repository directory `A` is pulled by
the sweep with its whole tree pruned. -/
theorem claim_C4_witness :
    (pyStartsWith "A" "." = false ∧ dirIsRepo [FsTree.dir ".git" []] = true) ∧
    git_pull_recursive [] [FsTree.dir "A" [FsTree.dir ".git" []]] =
      ([] ++ ["A"]) :: git_pull_recursive [] [] :=
  ⟨⟨by decide, by decide⟩,
    (claim_C4 [] "A" [FsTree.dir ".git" []] []).1 (by decide) (by decide)⟩

/-- C5: with summaries enabled, outside dry-run mode, and at least one
succeeded record, persisting rewrites the file as the dated header, one
block per successful record in insertion order, and — exactly when the
prior content was non-empty — the fixed-width separator followed by the
prior content verbatim.  (The no-op conditions themselves are claim C6.) -/
theorem claim_C5 (recs : List SummaryRecord) (date : String)
    (existing : Option String) (h : ∃ r ∈ recs, r.success = true) :
    save_summaries true false recs date existing =
      some ("Date: " ++ date ++ "\n\n" ++
        String.join ((recs.filter fun s => s.success).map recordBlock) ++
        (if existing.getD "" ≠ "" then sepLine ++ existing.getD "" else "")) := by
  obtain ⟨r, hr, hsucc⟩ := h
  have hne : recs ≠ [] := by rintro rfl; simp at hr
  have hfilter : recs.filter (fun s => s.success) ≠ [] := by
    intro hnil
    have := List.filter_eq_nil_iff.mp hnil r hr
    simp [hsucc] at this
  simp [save_summaries, hne, hfilter]

/-- Witness for C5: one successful and one failed record prepend a header
and a single block before the existing content. -/
theorem claim_C5_witness :
    (∃ r ∈ [SummaryRecord.mk "r1" "main" "Nice summary" true,
        SummaryRecord.mk "r2" "dev" "bad" false], r.success = true) ∧
    save_summaries true false
        [⟨"r1", "main", "Nice summary", true⟩, ⟨"r2", "dev", "bad", false⟩]
        "2026-10-12 10:00:00" (some "OLD") =
      some ("Date: " ++ "2026-10-12 10:00:00" ++ "\n\n" ++
        String.join (([SummaryRecord.mk "r1" "main" "Nice summary" true,
            SummaryRecord.mk "r2" "dev" "bad" false].filter
              fun s => s.success).map recordBlock) ++
        (if (some "OLD").getD "" ≠ "" then sepLine ++ (some "OLD").getD ""
          else "")) :=
  ⟨by decide,
    claim_C5 [⟨"r1", "main", "Nice summary", true⟩, ⟨"r2", "dev", "bad", false⟩]
      "2026-10-12 10:00:00" (some "OLD") (by decide)⟩

theorem filter_success_idem (recs : List SummaryRecord) :
    ((recs.filter fun s => s.success).filter fun s => s.success) =
      recs.filter fun s => s.success := by
  induction recs with
  | nil => rfl
  | cons a l ih => by_cases h : a.success <;> simp [List.filter_cons, h, ih]

/-- C6: persisting is a no-op — the destination file is untouched — when
summaries are disabled, the run is a dry run, the record list is empty,
or no record succeeded; moreover the persisted output never depends on
the records with `success = false` (filtering them away first changes
nothing), so a failed record is never written to the ledger. -/
theorem claim_C6 (enable dryRun : Bool) (recs : List SummaryRecord)
    (date : String) (existing : Option String) :
    ((enable = false ∨ dryRun = true ∨ recs = [] ∨ ∀ r ∈ recs, r.success = false) →
      save_summaries enable dryRun recs date existing = none) ∧
    save_summaries enable dryRun recs date existing =
      save_summaries enable dryRun (recs.filter fun s => s.success) date existing := by
  constructor
  · intro h
    rcases h with h | h | h | h
    · simp [save_summaries, h]
    · simp [save_summaries, h]
    · simp [save_summaries, h]
    · have hfil : recs.filter (fun s => s.success) = [] := by
        apply List.filter_eq_nil_iff.mpr
        intro a ha
        simp [h a ha]
      by_cases hA : recs = [] ∨ enable = false ∨ dryRun = true
      · unfold save_summaries
        rw [if_pos hA]
      · unfold save_summaries
        rw [if_neg hA]
        simp [hfil]
  · cases enable with
    | false => simp [save_summaries]
    | true =>
      cases dryRun with
      | true => simp [save_summaries]
      | false =>
        by_cases hrec : recs = []
        · subst hrec; simp [save_summaries]
        · by_cases hfil : recs.filter (fun s => s.success) = []
          · simp [save_summaries, hrec, hfil]
          · simp [save_summaries, hrec, hfil, filter_success_idem]

/-- Witness for C6: an all-failed record list leaves the file untouched. -/
theorem claim_C6_witness :
    save_summaries true false [⟨"r1", "main", "boom", false⟩]
      "2026-10-12 10:00:00" (some "OLD") = none :=
  (claim_C6 true false [⟨"r1", "main", "boom", false⟩] "2026-10-12 10:00:00"
    (some "OLD")).1 (Or.inr (Or.inr (Or.inr (by decide))))

/-- C9 counterexample: for a history A→B→C, `commitsBetween A C` lists
C's one-line summary before B's (the raw `git log` emission order), not
B's before C's as the claim's oldest-first ordering requires. -/
theorem claim_C9_counterexample :
    commitsBetween ["A one-line", "B one-line", "C one-line"] 0 2 =
      ["C one-line", "B one-line"] ∧
    commitsBetween ["A one-line", "B one-line", "C one-line"] 0 2 ≠
      ["B one-line", "C one-line"] :=
  ⟨by decide, by decide⟩

/-- C9 (amended): `commitsBetween` returns the one-line summaries of the
log range in the underlying emission order — newest first, with no
reversal applied by the engine: after a pull taking revision A to C via
A→B→C, C's summary is listed before B's. -/
theorem claim_C9 (a b c : String) (h : b ≠ c) :
    commitsBetween [a, b, c] 0 2 = [c, b] ∧
    commitsBetween [a, b, c] 0 2 ≠ [b, c] := by
  have he : commitsBetween [a, b, c] 0 2 = [c, b] := rfl
  refine ⟨he, ?_⟩
  rw [he]
  intro hcon
  injection hcon with h1 h2
  exact h h1.symm

/-- Witness for C9: the concrete three-revision scenario from the spec. -/
theorem claim_C9_witness :
    ("B one-line" ≠ "C one-line") ∧
    (commitsBetween ["A one-line", "B one-line", "C one-line"] 0 2 =
        ["C one-line", "B one-line"] ∧
      commitsBetween ["A one-line", "B one-line", "C one-line"] 0 2 ≠
        ["B one-line", "C one-line"]) :=
  ⟨by decide, claim_C9 "A one-line" "B one-line" "C one-line" (by decide)⟩

end UniGit
